import Mathlib

/-!
Verification of the CB-Chat-Buddy retrieval/caching/throttling core.

This file is a shallow embedding, in Lean 4, of the Python services under
`backend/app/services/` (rate_limiter.py, cache.py, rag.py).  Python floats
(similarity scores, timestamps, TTLs) are modelled as rationals `ℚ`; Python
strings are Lean `String`s, with the character-level helpers below standing in
for Python's `str.lower` / `in` / `strip` / `split` on the ASCII fragment the
code actually handles; `dict.get` of a possibly-missing metadata key is
modelled as an `Option` field.  External collaborators (the Qdrant vector
store, the sentence-transformer encoder, the Groq LLM) are modelled as
function-valued oracles, exactly as wide as the narrow interfaces the Python
code consumes.
-/

namespace ChatBuddy

/-! ### Character-level string helpers

Python's `str` operations used by the services, transcribed on `List Char`
(`String.data`).  They agree with CPython on the ASCII strings the services
manipulate (all intent keywords, timestamps and cache keys are ASCII).
-/

/-- ASCII lowercase of one character, as Python `str.lower` acts on ASCII. -/
def toLowerChar (c : Char) : Char :=
  if 'A' ≤ c ∧ c ≤ 'Z' then Char.ofNat (c.toNat + 32) else c

/-- Python `question.lower()`, character-wise. -/
def lowerData (s : String) : List Char := s.data.map toLowerChar

/-- Python substring test `pat in s` on character lists. -/
def containsSub (pat : List Char) : List Char → Bool
  | [] => pat.isEmpty
  | c :: rest => pat.isPrefixOf (c :: rest) || containsSub pat rest

/-- Python `kw in q` where `q` is an already-lowered character list. -/
def str_in (kw : String) (q : List Char) : Bool := containsSub kw.data q

/-- Whitespace recognised by Python `str.strip()` (ASCII fragment). -/
def isSpaceChar (c : Char) : Bool :=
  decide (c = ' ' ∨ c = '\t' ∨ c = '\n' ∨ c = '\r' ∨ c = '\x0b' ∨ c = '\x0c')

/-- Python `s.strip()`, character-wise. -/
def trimData (l : List Char) : List Char :=
  ((l.dropWhile isSpaceChar).reverse.dropWhile isSpaceChar).reverse

/-- Split a character list on a separator character; Python `s.split(sep)`. -/
def splitOnChar (sep : Char) : List Char → List (List Char)
  | [] => [[]]
  | c :: rest =>
    let r := splitOnChar sep rest
    if c = sep then [] :: r
    else
      match r with
      | [] => [[c]]
      | g :: gs => (c :: g) :: gs

/-- Decimal-digit test. -/
def isDigitChar (c : Char) : Bool := decide ('0' ≤ c ∧ c ≤ '9')

/-- Python `int(s)` restricted to the all-digit strings timestamps contain;
any other shape raises `ValueError` in Python, modelled as `none`. -/
def digitsToNat? (l : List Char) : Option ℕ :=
  if l ≠ [] ∧ l.all isDigitChar then
    some (l.foldl (fun acc c => acc * 10 + (c.toNat - 48)) 0)
  else none

/-- Python `float(s)` restricted to the `"SS"` / `"SS.mmm"` shapes timestamp
fields contain; any other shape raises `ValueError`, modelled as `none`. -/
def parseFloatQ (l : List Char) : Option ℚ :=
  match splitOnChar '.' l with
  | [a] => (digitsToNat? a).map (fun n => (n : ℚ))
  | [a, b] =>
    match digitsToNat? a, digitsToNat? b with
    | some n, some f => some ((n : ℚ) + (f : ℚ) / (10 : ℚ) ^ b.length)
    | _, _ => none
  | _ => none

/-! ### Rate limiter (`rate_limiter.py`)

`time.time()` values are rationals; the UTC day string produced by
`_get_day_key` is abstracted to a `ℕ` day key passed in by the caller (the
Python code derives it from the wall clock on every call).  The
`asyncio.Lock` and the minimum-delay `sleep` serialize and pace calls but
change no counter, so the admission logic is the sequential function below.
-/

/-- Result of a rate limit check (`RateLimitStatus`). -/
structure RateLimitStatus where
  allowed : Bool
  status : String
  message : Option String := none
deriving DecidableEq

/-- Mutable state of `RateLimiter`, plus its constructor configuration. -/
structure RateLimiter where
  tpm_limit : ℕ
  rpd_limit : ℕ
  tokens_this_minute : ℕ
  minute_start : ℚ
  requests_today : ℕ
  day_key : ℕ
  last_request_time : ℚ
  min_delay_ms : ℚ
deriving DecidableEq

/-- `RateLimiter._maybe_reset_counters`: lazily roll the minute and day
windows over. -/
def maybe_reset_counters (now : ℚ) (currentDay : ℕ) (rl : RateLimiter) :
    RateLimiter :=
  let rl1 :=
    if now - rl.minute_start ≥ 60 then
      { rl with tokens_this_minute := 0, minute_start := now }
    else rl
  if currentDay ≠ rl1.day_key then
    { rl1 with requests_today := 0, day_key := currentDay }
  else rl1

/-- The Peter-Pandey-styled blocked message (`_friendly_blocked_message`);
the literal marketing copy is abbreviated, its content is not load-bearing. -/
def friendly_blocked_message (waitTime : String) : String :=
  "Hey! Looks like we have used up all the tokens for today. " ++
  "Your tokens reset every 24 hours (midnight UTC), " ++
  "so you will be back in action " ++ waitTime ++ "."

/-- The cached-only notice shown at 95% daily usage (literal copy
abbreviated, content not load-bearing). -/
def cached_only_message : String :=
  "Heads up, we are almost out of tokens for today! " ++
  "Your tokens reset at midnight UTC."

/-- `RateLimiter.acquire`.  `now` is `time.time()`, `currentDay` the current
UTC day key, `hoursLeft` the value `_hours_until_midnight()` would return.
Returns the admission status together with the post-call limiter state.  The
minimum-delay sleep between the cached-only check and the counter increment
only paces the call, so it is not part of the state transition beyond the
`last_request_time` update. -/
def acquire (now : ℚ) (currentDay : ℕ) (hoursLeft : ℚ) (rl : RateLimiter) :
    RateLimitStatus × RateLimiter :=
  let rl1 := maybe_reset_counters now currentDay rl
  let dailyPct : ℚ :=
    if 0 < rl1.rpd_limit then
      ((rl1.requests_today : ℚ) / (rl1.rpd_limit : ℚ)) * 100
    else 0
  if rl1.requests_today ≥ rl1.rpd_limit then
    let waitMsg := if hoursLeft > 1 then "in about some hours" else "tomorrow"
    (⟨false, "blocked", some (friendly_blocked_message waitMsg)⟩, rl1)
  else if dailyPct ≥ 95 then
    (⟨false, "cached_only", some cached_only_message⟩, rl1)
  else
    let rl2 := { rl1 with last_request_time := now,
                          requests_today := rl1.requests_today + 1 }
    if dailyPct ≥ 80 then (⟨true, "degraded", none⟩, rl2)
    else (⟨true, "ok", none⟩, rl2)

/-- `RateLimiter.record_usage`. -/
def record_usage (tokensUsed : ℕ) (rl : RateLimiter) : RateLimiter :=
  { rl with tokens_this_minute := rl.tokens_this_minute + tokensUsed }

/-- The value of the daily request counter as seen on day `currentDay`: the
stored field while the stored day key is current, `0` once the UTC day has
rolled over (the lazy reset in `_maybe_reset_counters` realises exactly
this value before any check). -/
def dailyCount (currentDay : ℕ) (rl : RateLimiter) : ℕ :=
  if currentDay = rl.day_key then rl.requests_today else 0

/-! ### Reference and RAGResponse (`rag.py` dataclasses) -/

/-- A lecture reference with timestamp deep-link (`Reference`). -/
structure Reference where
  lecture_title : String
  chapter_title : String
  timestamp : String
  url : String
deriving DecidableEq

/-- Complete RAG pipeline response (`RAGResponse`). -/
structure RAGResponse where
  message : String
  references : List Reference := []
  response_type : String := "in_scope"
  cache_hit : Bool := false
  tokens_used : Option ℕ := none
deriving DecidableEq

/-! ### 3-layer cache (`cache.py`)

Embedding vectors are `List ℚ`.  The SHA-256 digest used as embedding-cache
key is modelled as the normalized text itself (the digest is injective on the
inputs the service meets; only key equality is ever consulted).  The hit/miss
statistics counters and the every-100th-access sweep `_cleanup_expired` are
not modelled: the sweep removes exactly the entries the TTL guard in
`get_embedding` / `get_semantic_match` already rejects, so it cannot change
any returned value, and the statistics feed only the monitoring endpoint.
-/

/-- Cached embedding with timestamp (`EmbeddingCacheEntry`). -/
structure EmbeddingCacheEntry where
  embedding : List ℚ
  timestamp : ℚ
deriving DecidableEq

/-- Cached response with question embedding and scope metadata
(`SemanticCacheEntry`).  `response_references` keeps the `Reference` fields
the Python dict round-trip preserves. -/
structure SemanticCacheEntry where
  question_embedding : List ℚ
  response_message : String
  response_references : List Reference
  response_type : String
  lecture_order : ℕ
  course_title : String
  timestamp : ℚ
deriving DecidableEq

/-- State and configuration of `CacheService`. -/
structure CacheService where
  embedding_ttl : ℚ
  semantic_ttl : ℚ
  similarity_threshold : ℚ
  embedding_cache : List Char → Option EmbeddingCacheEntry
  semantic_cache : List SemanticCacheEntry

/-- `CacheService._question_hash`: strip then lowercase (the SHA-256 digest
of that text is modelled by the text itself). -/
def question_hash (question : String) : List Char :=
  (trimData question.data).map toLowerChar

/-- `CacheService.get_embedding` at wall-clock time `now`. -/
def get_embedding (c : CacheService) (now : ℚ) (question : String) :
    Option (List ℚ) :=
  match c.embedding_cache (question_hash question) with
  | some entry =>
    if now - entry.timestamp < c.embedding_ttl then some entry.embedding
    else none
  | none => none

/-- `CacheService.store_embedding` at wall-clock time `now`. -/
def store_embedding (c : CacheService) (now : ℚ) (question : String)
    (embedding : List ℚ) : CacheService :=
  { c with embedding_cache := fun k =>
      if k = question_hash question then some ⟨embedding, now⟩
      else c.embedding_cache k }

/-- `np.dot` on equal-length vectors (the encoder always produces 384-wide
vectors; on ragged input NumPy raises, a case the service never reaches). -/
def dotQ : List ℚ → List ℚ → ℚ
  | [], _ => 0
  | _, [] => 0
  | a :: as_, b :: bs => a * b + dotQ as_ bs

/-- The scan inside `CacheService.get_semantic_match`: first stored entry
that is unexpired, scope-matching, and similar at or above threshold.  The
scope guard precedes the similarity computation exactly as in the source:
`dotQ` is applied only under the scope-equality branch. -/
def findSemanticEntry (entries : List SemanticCacheEntry) (now ttl thresh : ℚ)
    (questionEmbedding : List ℚ) (lectureOrder : ℕ) (courseTitle : String) :
    Option SemanticCacheEntry :=
  match entries with
  | [] => none
  | e :: rest =>
    if now - e.timestamp ≥ ttl then
      findSemanticEntry rest now ttl thresh questionEmbedding lectureOrder courseTitle
    else if e.lecture_order ≠ lectureOrder ∨ e.course_title ≠ courseTitle then
      findSemanticEntry rest now ttl thresh questionEmbedding lectureOrder courseTitle
    else if dotQ questionEmbedding e.question_embedding ≥ thresh then
      some e
    else
      findSemanticEntry rest now ttl thresh questionEmbedding lectureOrder courseTitle

/-- `CacheService.get_semantic_match`: build the duck-typed `RAGResponse`
from the first matching entry. -/
def get_semantic_match (c : CacheService) (now : ℚ)
    (questionEmbedding : List ℚ) (lectureOrder : ℕ) (courseTitle : String) :
    Option RAGResponse :=
  (findSemanticEntry c.semantic_cache now c.semantic_ttl c.similarity_threshold
      questionEmbedding lectureOrder courseTitle).map
    (fun e =>
      { message := e.response_message
        references := e.response_references
        response_type := e.response_type
        cache_hit := true })

/-- `CacheService.store_response` at wall-clock time `now` (the
dict/`Reference` serialization round-trip is field-preserving). -/
def store_response (c : CacheService) (now : ℚ) (questionEmbedding : List ℚ)
    (response : RAGResponse) (lectureOrder : ℕ) (courseTitle : String) :
    CacheService :=
  { c with semantic_cache := c.semantic_cache ++
      [{ question_embedding := questionEmbedding
         response_message := response.message
         response_references := response.references
         response_type := response.response_type
         lecture_order := lectureOrder
         course_title := courseTitle
         timestamp := now }] }

/-! ### Scored chunks and the vector-store oracle

`ScoredChunk.metadata` is a Python dict read through `.get`, so every field
is an `Option`; `meta.get(key, default)` is `Option.getD`.  The Qdrant-backed
`VectorStoreService` is an oracle: each search method is an opaque function
of exactly the arguments the Python call sites pass (the fixed collection
name and embedding model are ambient).  `search_current_lecture` is called
either with `lecture_id` or with `lecture_order`, never both, so its two
call shapes are two oracle fields.
-/

/-- Metadata payload of a retrieved chunk. -/
structure ChunkMeta where
  lecture_id : Option String := none
  chunk_index : Option ℕ := none
  lecture_title : Option String := none
  chapter_title : Option String := none
  lecture_order : Option ℕ := none
  timestamp_start : Option String := none
  timestamp_end : Option String := none
  player_embed_url : Option String := none
deriving DecidableEq

/-- A retrieved transcript passage (`ScoredChunk`). -/
structure ScoredChunk where
  text : String := ""
  score : ℚ
  meta : ChunkMeta
deriving DecidableEq

/-- The Qdrant search interface consumed by the pipeline. -/
structure VectorStoreService where
  search : List ℚ → String → ℕ → ℕ → List ScoredChunk
  searchCurrentById : List ℚ → String → String → ℕ → List ScoredChunk
  searchCurrentByOrder : List ℚ → String → ℕ → ℕ → List ScoredChunk
  searchAllLectures : List ℚ → String → ℕ → List ScoredChunk
  getLectureOrderById : String → Option ℕ

/-- Every search method returns at most the requested `top_k` chunks (the
Qdrant client contract). -/
def BoundedStore (vs : VectorStoreService) : Prop :=
  (∀ v co mo k, (vs.search v co mo k).length ≤ k) ∧
  (∀ v co lid k, (vs.searchCurrentById v co lid k).length ≤ k) ∧
  (∀ v co o k, (vs.searchCurrentByOrder v co o k).length ≤ k) ∧
  (∀ v co k, (vs.searchAllLectures v co k).length ≤ k)

/-! ### Intent detection (`RAGPipeline._detect_intent`) -/

/-- Detected question intent. -/
inductive Intent where
  | previous
  | current
  | default
deriving DecidableEq

/-- The previous-lecture keyword list, transcribed from the source. -/
def previousKeywords : List String :=
  ["previous lecture", "last lecture", "prev lecture",
   "previous video", "last video", "earlier lecture",
   "pichle lecture", "pichli lecture", "pehle wala",
   "pehle ki lecture", "pichla video",
   "in the last", "in the previous", "from the previous",
   "you said earlier", "you mentioned earlier",
   "earlier you said", "earlier you mentioned"]

/-- The current-lecture keyword list, transcribed from the source. -/
def currentKeywords : List String :=
  ["this lecture", "current lecture", "this video", "in this video",
   "covered in this", "what is covered", "what was covered",
   "what did we", "what have we", "lecture summary", "overview of this",
   "explain this lecture", "summarize this", "recap", "what topics",
   "what we learned", "what did we learn", "what are we learning",
   "what was taught", "what did you teach", "what are we covering",
   "what did the instructor", "explain the concept",
   "summary", "summarize",
   "is yahan", "is lecture", "yeh lecture", "ye lecture",
   "ye video", "yeh video", "is video mein", "ye video mein",
   "abhi", "aaj ka", "aaj ki", "kya padha rahe",
   "kya sikha rahe", "is mein"]

/-- `RAGPipeline._detect_intent`: previous-markers first, then
current-markers, else default. -/
def detect_intent (question : String) : Intent :=
  let q := lowerData question
  if previousKeywords.any (fun kw => str_in kw q) then Intent.previous
  else if currentKeywords.any (fun kw => str_in kw q) then Intent.current
  else Intent.default

/-! ### Dual-search retriever (`RAGPipeline._perform_dual_search`) -/

/-- `RAGPipeline._resolve_lecture_order`: metadata lookup, with the
`frontend_order + 1` heuristic fallback. -/
def resolve_lecture_order (vs : VectorStoreService) (lectureId : String)
    (frontendOrder : ℕ) : ℕ :=
  if lectureId ≠ "" then
    match vs.getLectureOrderById lectureId with
    | some o => o
    | none => frontendOrder + 1
  else frontendOrder + 1

/-- Deduplication key `(metadata.get('lecture_id', ''), metadata.get('chunk_index'))`. -/
def chunkKey (c : ScoredChunk) : String × Option ℕ :=
  (c.meta.lecture_id.getD "", c.meta.chunk_index)

/-- Score of the first chunk, or a default when the list is empty
(Python `chunks[0].score if chunks else d`). -/
def headScoreD (l : List ScoredChunk) (d : ℚ) : ℚ :=
  match l with
  | [] => d
  | c :: _ => c.score

/-- The in-place ×1.3 boost (clamped to 1.0) of every chunk whose
`lecture_id` equals the current one, written functionally.  Chunk identity in
later steps goes through `chunkKey`, which a score rewrite leaves unchanged,
so the Python aliasing of shared chunk objects is immaterial. -/
def boostCurrent (lectureId : String) (l : List ScoredChunk) :
    List ScoredChunk :=
  l.map (fun c =>
    if c.meta.lecture_id = some lectureId then
      { c with score := min (c.score * (13 / 10)) 1 }
    else c)

/-- Stable insertion of a chunk into a descending-by-score list, placing it
before the first strictly-smaller element. -/
def insertDesc (c : ScoredChunk) : List ScoredChunk → List ScoredChunk
  | [] => [c]
  | x :: xs => if x.score ≥ c.score then x :: insertDesc c xs else c :: x :: xs

/-- Python `list.sort(key=lambda x: x.score, reverse=True)`: stable
descending sort by score. -/
def sortDesc : List ScoredChunk → List ScoredChunk
  | [] => []
  | c :: cs => insertDesc c (sortDesc cs)

/-- The merge loop of Step 7: current-lecture chunks scoring above 0.3 first
(all of them, the `seen` set receives only appended keys), then each broad
chunk whose key is not yet present. -/
def mergeCandidates (currentChunks broadChunks : List ScoredChunk) :
    List ScoredChunk :=
  broadChunks.foldl
    (fun acc c =>
      if acc.any (fun x => decide (chunkKey x = chunkKey c)) then acc
      else acc ++ [c])
    (currentChunks.filter (fun c => decide (c.score > 3 / 10)))

/-- Steps 6–7 of `_perform_dual_search`: the weak-relevance broad merge with
current-lecture priority and the minimum-presence splice. -/
def mergeWithCurrentPriority (currentChunks broadChunks : List ScoredChunk)
    (lectureId : String) : List ScoredChunk :=
  let finalChunks := sortDesc (boostCurrent lectureId
    (mergeCandidates currentChunks broadChunks))
  let top5 := finalChunks.take 5
  let currentInFinal :=
    top5.filter (fun c => decide (c.meta.lecture_id = some lectureId))
  if currentInFinal.length < 2 ∧ currentChunks ≠ [] then
    let remainingCurrent := currentChunks.filter
      (fun c => ! currentInFinal.any (fun x => decide (chunkKey x = chunkKey c)))
    if remainingCurrent ≠ [] then
      let nonCurrent :=
        top5.filter (fun c => decide (¬ c.meta.lecture_id = some lectureId))
      (currentInFinal ++ remainingCurrent.take (2 - currentInFinal.length) ++
        nonCurrent).take 5
    else top5
  else top5

/-- Steps 3–7 of `_perform_dual_search` (after the previous-intent early
return): current-lecture search, current-intent early return, and the two
relevance-dependent merge strategies. -/
def dualSearchMain (vs : VectorStoreService) (queryVector : List ℚ)
    (courseTitle : String) (resolvedOrder : ℕ) (intent : Intent)
    (lectureId : String) : List ScoredChunk :=
  let currentChunks :=
    if lectureId ≠ "" then
      vs.searchCurrentById queryVector courseTitle lectureId 5
    else
      vs.searchCurrentByOrder queryVector courseTitle resolvedOrder 5
  if intent = Intent.current ∧ currentChunks ≠ [] then currentChunks
  else
    let bestCurrentScore := headScoreD currentChunks 0
    if bestCurrentScore > 1 / 2 then
      let broadChunks := vs.search queryVector courseTitle resolvedOrder 3
      let currentKeys := currentChunks.map chunkKey
      let uniqueBroad := broadChunks.filter
        (fun c => ! currentKeys.contains (chunkKey c))
      let combined := currentChunks.take 4 ++ uniqueBroad.take 1
      sortDesc (boostCurrent lectureId combined)
    else
      let broadChunks := vs.search queryVector courseTitle resolvedOrder 5
      mergeWithCurrentPriority currentChunks broadChunks lectureId

/-- `RAGPipeline._perform_dual_search`.  `enc` is the deterministic
`EmbeddingService.encode` oracle; the explicit previous-intent search embeds
the raw question through it, while `queryVector` is the (possibly enriched)
vector handed in by the orchestrator.  The previous-intent attempt is empty
exactly when the code falls through to the current-lecture strategy. -/
def perform_dual_search (vs : VectorStoreService) (enc : String → List ℚ)
    (queryVector : List ℚ) (courseTitle : String)
    (currentLectureOrder : ℕ) (question : String) (lectureId : String) :
    List ScoredChunk :=
  let resolvedOrder := resolve_lecture_order vs lectureId currentLectureOrder
  let intent := detect_intent question
  let prevAttempt : List ScoredChunk :=
    if intent = Intent.previous ∧ 1 < resolvedOrder then
      vs.searchCurrentByOrder (enc question) courseTitle (resolvedOrder - 1) 5
    else []
  if prevAttempt ≠ [] then prevAttempt
  else dualSearchMain vs queryVector courseTitle resolvedOrder intent lectureId

/-! ### Result classifier (`RAGPipeline._classify_results`) -/

/-- `RELEVANCE_THRESHOLD` (0.35). -/
def RELEVANCE_THRESHOLD : ℚ := 35 / 100

/-- `HIGH_RELEVANCE_THRESHOLD` (0.7). -/
def HIGH_RELEVANCE_THRESHOLD : ℚ := 7 / 10

/-- `RAGPipeline._classify_results`: previous-intent trust, the pass-2
whole-course rescue deciding future-topic vs off-topic, and the 3-vs-5 chunk
budget for in-scope results. -/
def classify_results (vs : VectorStoreService) (chunks : List ScoredChunk)
    (queryVector : List ℚ) (courseTitle : String) (intent : Intent) :
    String × List ScoredChunk :=
  if intent = Intent.previous ∧ chunks ≠ [] then ("in_scope", chunks.take 5)
  else if chunks = [] ∨ headScoreD chunks 0 < RELEVANCE_THRESHOLD then
    let allChunks := vs.searchAllLectures queryVector courseTitle 3
    if allChunks ≠ [] ∧ headScoreD allChunks 0 ≥ RELEVANCE_THRESHOLD then
      ("future_topic", [])
    else ("off_topic", [])
  else if headScoreD chunks 0 ≥ HIGH_RELEVANCE_THRESHOLD then
    ("in_scope", chunks.take 3)
  else ("in_scope", chunks.take 5)

/-! ### Reference building and post-processing (`rag.py`) -/

/-- `RAGPipeline._timestamp_to_seconds`: `"HH:MM:SS(.mmm)"` or `"MM:SS(.mmm)"`
to truncated integer seconds, `0` on any parse failure. -/
def timestamp_to_seconds (ts : String) : ℕ :=
  match splitOnChar ':' ts.data with
  | [hs, ms, ss] =>
    match digitsToNat? hs, digitsToNat? ms, parseFloatQ ss with
    | some h, some m, some s => (((h * 3600 + m * 60 : ℕ) : ℚ) + s).floor.toNat
    | _, _, _ => 0
  | [ms, ss] =>
    match digitsToNat? ms, parseFloatQ ss with
    | some m, some s => (((m * 60 : ℕ) : ℚ) + s).floor.toNat
    | _, _ => 0
  | _ => 0

/-- The reference record built from one chunk's metadata inside
`_build_references`. -/
def mkReference (m : ChunkMeta) : Reference :=
  let startSeconds := timestamp_to_seconds (m.timestamp_start.getD "00:00:00")
  let playerUrl := m.player_embed_url.getD ""
  let url :=
    if playerUrl ≠ "" then playerUrl ++ "#t=" ++ toString startSeconds ++ "s"
    else ""
  let ts := m.timestamp_start.getD "00:00:00"
  let displayTs :=
    if "00:".data.isPrefixOf ts.data then String.mk (ts.data.drop 3) else ts
  { lecture_title := m.lecture_title.getD ""
    chapter_title := m.chapter_title.getD ""
    timestamp := displayTs
    url := url }

/-- The loop of `_build_references`, with the `seen` dedup set threaded as a
list of `(lecture_title, timestamp_start)` keys. -/
def buildReferencesAux (chunks : List ScoredChunk)
    (currentLectureId : String) (seen : List (String × String)) :
    List Reference :=
  match chunks with
  | [] => []
  | c :: rest =>
    if currentLectureId ≠ "" ∧ c.meta.lecture_id = some currentLectureId then
      buildReferencesAux rest currentLectureId seen
    else
      let key := (c.meta.lecture_title.getD "", c.meta.timestamp_start.getD "")
      if key ∈ seen then buildReferencesAux rest currentLectureId seen
      else mkReference c.meta ::
        buildReferencesAux rest currentLectureId (key :: seen)

/-- `RAGPipeline._build_references` (the `current_lecture_order` parameter is
unused in the source body and kept for signature fidelity). -/
def build_references (chunks : List ScoredChunk)
    (currentLectureOrder : ℕ) (currentLectureId : String) : List Reference :=
  buildReferencesAux chunks currentLectureId []

/-- Python `text.replace(pat, rep, 1)`: replace the first occurrence only. -/
def replaceFirstData (s pat rep : List Char) : Option (List Char) :=
  if pat.isPrefixOf s then some (rep ++ s.drop pat.length)
  else
    match s with
    | [] => none
    | c :: rest => (replaceFirstData rest pat rep).map (fun r => c :: r)

/-- Replace the first occurrence of `pat` in `s` by `rep`, or keep `s` when
`pat` does not occur. -/
def replaceFirst (s pat rep : String) : String :=
  match replaceFirstData s.data pat.data rep.data with
  | some r => String.mk r
  | none => s

/-- `RAGPipeline._post_process_response`: linkify the first mention of each
non-current referenced lecture's title. -/
def post_process_response (llmText : String) (chunks : List ScoredChunk)
    (currentLectureOrder : ℕ) (currentLectureId : String) : String :=
  chunks.foldl
    (fun text c =>
      if currentLectureId ≠ "" ∧ c.meta.lecture_id = some currentLectureId then
        text
      else
        let lectureName := c.meta.lecture_title.getD ""
        if lectureName ≠ "" ∧ containsSub lectureName.data text.data then
          let startSeconds :=
            timestamp_to_seconds (c.meta.timestamp_start.getD "00:00:00")
          let playerUrl := c.meta.player_embed_url.getD ""
          if playerUrl ≠ "" then
            replaceFirst text lectureName
              ("[" ++ lectureName ++ "](" ++ playerUrl ++ "#t=" ++
                toString startSeconds ++ "s)")
          else text
        else text)
    llmText

/-- `RAGPipeline._off_topic_message` (copy abbreviated). -/
def off_topic_message (courseTitle : String) : String :=
  "Hmm, that is outside what I can help with. I am here for the " ++
  courseTitle ++ " course."

/-- `RAGPipeline._future_topic_message` (copy abbreviated). -/
def future_topic_message (courseTitle futureInfo : String) : String :=
  "Good question! That topic is coming up later in the course" ++
  futureInfo ++ ". You will get to it soon!"

/-! ### Orchestrator (`RAGPipeline.process_question` /
`process_question_stream`)

The LLM is an oracle for the outcome of this request's `_call_llm` /
`generate_response_stream` invocation: non-streaming, an
`Except String (String × Option ℕ)` (error message, or response text with
token count); streaming, the list of tokens delivered before the stream
either ends normally or raises.  Prompt-only inputs (history, teaching mode,
response style, hint stage, screenshot context, the assembled context
string, and the `_detect_struggle` flag) are absorbed by that oracle: they
are consumed by nothing but the model call.  The wall clock is the `now`
rational passed to every cache/limiter operation.
-/

/-- The enriched query Step 1 builds: a `[chapter - lecture]: question`
prefix when titles are available. -/
def enrichQuery (question chapterTitle lectureTitle : String) : String :=
  if chapterTitle ≠ "" ∧ lectureTitle ≠ "" then
    "[" ++ chapterTitle ++ " - " ++ lectureTitle ++ "]: " ++ question
  else if lectureTitle ≠ "" then
    "[" ++ lectureTitle ++ "]: " ++ question
  else question

/-- Embedding lookup with write-back on miss (Step 1 of both entry points):
the enriched query's vector, plus the possibly-updated cache. -/
def embedWithCache (enc : String → List ℚ) (cache : Option CacheService)
    (now : ℚ) (enrichedQuery : String) : List ℚ × Option CacheService :=
  let cached : Option (List ℚ) :=
    match cache with
    | some c => get_embedding c now enrichedQuery
    | none => none
  match cached with
  | some v => (v, cache)
  | none =>
    (enc enrichedQuery,
     cache.map (fun c => store_embedding c now enrichedQuery (enc enrichedQuery)))

/-- The `if self.cache:` guarded semantic-cache lookup shared by both entry
points. -/
def cacheSemanticLookup (cache : Option CacheService) (now : ℚ)
    (rawEmbedding : List ℚ) (lectureOrder : ℕ) (courseTitle : String) :
    Option RAGResponse :=
  match cache with
  | some c => get_semantic_match c now rawEmbedding lectureOrder courseTitle
  | none => none

/-- Steps 3–8 of `process_question` (after cache hit and rate limiting):
search, classify, the three response branches, and the semantic-cache
write-back on a successful model call. -/
def processQuestionCore (vs : VectorStoreService) (enc : String → List ℚ)
    (llmResult : Except String (String × Option ℕ))
    (now : ℚ) (queryVector rawEmbedding : List ℚ)
    (cache1 : Option CacheService) (rl1 : Option RateLimiter)
    (question courseTitle : String) (currentLectureOrder : ℕ)
    (lectureId : String) :
    RAGResponse × Option CacheService × Option RateLimiter :=
  let chunks := perform_dual_search vs enc queryVector courseTitle
    currentLectureOrder question lectureId
  let detectedIntent := detect_intent question
  let classified := classify_results vs chunks queryVector courseTitle detectedIntent
  let responseType := classified.1
  let chunksToUse := classified.2
  if responseType = "off_topic" then
    ({ message := off_topic_message courseTitle, response_type := "off_topic" },
     cache1, rl1)
  else if responseType = "future_topic" then
    let futureChunks := vs.searchAllLectures queryVector courseTitle 1
    let futureInfo :=
      match futureChunks with
      | [] => ""
      | fc :: _ =>
        " in **" ++ (fc.meta.lecture_title.getD "") ++ "** (Chapter: " ++
          (fc.meta.chapter_title.getD "") ++ ")"
    ({ message := future_topic_message courseTitle futureInfo,
       response_type := "future_topic" }, cache1, rl1)
  else
    match llmResult with
    | Except.error e =>
      ({ message := e, response_type := "error" }, cache1, rl1)
    | Except.ok (responseText, tokensUsed) =>
      let rl2 :=
        match rl1, tokensUsed with
        | some r, some t => if t ≠ 0 then some (record_usage t r) else some r
        | r, _ => r
      let references := build_references chunksToUse currentLectureOrder lectureId
      let finalText := post_process_response responseText chunksToUse
        currentLectureOrder lectureId
      let result : RAGResponse :=
        { message := finalText, references := references,
          response_type := "in_scope", tokens_used := tokensUsed }
      let cache2 := cache1.map (fun c =>
        store_response c now rawEmbedding result currentLectureOrder courseTitle)
      (result, cache2, rl2)

/-- `RAGPipeline.process_question`: the single-shot entry point.  Returns
the response together with the post-call cache and rate-limiter states. -/
def process_question (vs : VectorStoreService) (enc : String → List ℚ)
    (llmResult : Except String (String × Option ℕ))
    (now : ℚ) (currentDay : ℕ) (hoursLeft : ℚ)
    (rl : Option RateLimiter) (cache : Option CacheService)
    (question courseTitle : String) (currentLectureOrder : ℕ)
    (lectureId : String) (chapterTitle lectureTitle : String) :
    RAGResponse × Option CacheService × Option RateLimiter :=
  let enriched := enrichQuery question chapterTitle lectureTitle
  let embedded := embedWithCache enc cache now enriched
  let queryVector := embedded.1
  let cache1 := embedded.2
  let rawEmbedding := enc question
  let semHit := cacheSemanticLookup cache1 now rawEmbedding
    currentLectureOrder courseTitle
  match semHit with
  | some cached => ({ cached with cache_hit := true }, cache1, rl)
  | none =>
    match rl.map (fun r => acquire now currentDay hoursLeft r) with
    | some (st, rAfter) =>
      if st.status = "blocked" ∨ st.status = "cached_only" then
        ({ message := st.message.getD "", response_type := "rate_limited" },
         cache1, some rAfter)
      else
        processQuestionCore vs enc llmResult now queryVector rawEmbedding
          cache1 (some rAfter) question courseTitle currentLectureOrder lectureId
    | none =>
      processQuestionCore vs enc llmResult now queryVector rawEmbedding
        cache1 none question courseTitle currentLectureOrder lectureId

/-- An SSE event yielded by the streaming entry point, with the JSON
envelope elided: `token`, `errorEvent`, or `done` (references,
response type, `cacheHit` flag, and the optional `showReferences` flag that
only the success path carries). -/
inductive StreamEvent where
  | token (content : String)
  | errorEvent (content : String)
  | done (references : List Reference) (responseType : String)
      (cacheHit : Bool) (showReferences : Option Bool)
deriving DecidableEq

/-- `RAGPipeline.process_question_stream`.  `llmTokens` are the tokens the
model stream delivered; `llmError` is `some e` when the stream raised after
those tokens (the mid-flow failure path) and `none` when it completed.
Returns the yielded events with the post-call cache and limiter states. -/
def process_question_stream (vs : VectorStoreService) (enc : String → List ℚ)
    (llmTokens : List String) (llmError : Option String)
    (now : ℚ) (currentDay : ℕ) (hoursLeft : ℚ)
    (rl : Option RateLimiter) (cache : Option CacheService)
    (question courseTitle : String) (currentLectureOrder : ℕ)
    (lectureId : String) (chapterTitle lectureTitle : String) :
    List StreamEvent × Option CacheService × Option RateLimiter :=
  let enriched := enrichQuery question chapterTitle lectureTitle
  let embedded := embedWithCache enc cache now enriched
  let queryVector := embedded.1
  let cache1 := embedded.2
  let rawEmbedding := enc question
  let semHit := cacheSemanticLookup cache1 now rawEmbedding
    currentLectureOrder courseTitle
  match semHit with
  | some cached =>
    (((cached.message.splitOn " ").map (fun w => StreamEvent.token (w ++ " "))) ++
      [StreamEvent.done cached.references cached.response_type true none],
     cache1, rl)
  | none =>
    let rateStep := rl.map (fun r => acquire now currentDay hoursLeft r)
    let rl1 : Option RateLimiter :=
      match rateStep with
      | some (_, rAfter) => some rAfter
      | none => none
    let rateRefused : Option RateLimitStatus :=
      match rateStep with
      | some (st, _) =>
        if st.status = "blocked" ∨ st.status = "cached_only" then some st
        else none
      | none => none
    match rateRefused with
    | some st =>
      ([StreamEvent.token (st.message.getD ""),
        StreamEvent.done [] "rate_limited" false none], cache1, rl1)
    | none =>
      let chunks := perform_dual_search vs enc queryVector courseTitle
        currentLectureOrder question lectureId
      let streamIntent := detect_intent question
      let classified := classify_results vs chunks queryVector courseTitle streamIntent
      let responseType := classified.1
      let chunksToUse := classified.2
      if responseType = "off_topic" then
        ([StreamEvent.token (off_topic_message courseTitle),
          StreamEvent.done [] "off_topic" false none], cache1, rl1)
      else if responseType = "future_topic" then
        let futureChunks := vs.searchAllLectures queryVector courseTitle 1
        let futureInfo :=
          match futureChunks with
          | [] => ""
          | fc :: _ =>
            " in **" ++ (fc.meta.lecture_title.getD "") ++ "** (Chapter: " ++
              (fc.meta.chapter_title.getD "") ++ ")"
        ([StreamEvent.token (future_topic_message courseTitle futureInfo),
          StreamEvent.done [] "future_topic" false none], cache1, rl1)
      else
        let references := build_references chunksToUse currentLectureOrder lectureId
        let tokenEvents := llmTokens.map StreamEvent.token
        match llmError with
        | some e =>
          (tokenEvents ++ [StreamEvent.errorEvent e,
            StreamEvent.done [] "error" false none], cache1, rl1)
        | none =>
          let fullResponse := String.join llmTokens
          let showRefs :=
            ((chunksToUse.map (fun c => c.meta.lecture_id)).dedup).length > 1
          let events := tokenEvents ++
            [StreamEvent.done references "in_scope" false (some showRefs)]
          let cache2 :=
            if fullResponse ≠ "" then
              cache1.map (fun c =>
                store_response c now rawEmbedding
                  { message := fullResponse, references := references,
                    response_type := "in_scope" }
                  currentLectureOrder courseTitle)
            else cache1
          (events, cache2, rl1)

/-- The semantic-cache layer of an optional cache state, for stating
cache-preservation properties. -/
def semanticLayer (cache : Option CacheService) :
    Option (List SemanticCacheEntry) :=
  cache.map (fun c => c.semantic_cache)

/-! ## Helper lemmas -/

theorem maybe_reset_requests (now : ℚ) (day : ℕ) (rl : RateLimiter) :
    (maybe_reset_counters now day rl).requests_today = dailyCount day rl := by
  simp only [maybe_reset_counters, dailyCount]
  by_cases h60 : now - rl.minute_start ≥ 60 <;>
    by_cases hd : day = rl.day_key <;>
      simp [h60, hd]

theorem maybe_reset_rpd (now : ℚ) (day : ℕ) (rl : RateLimiter) :
    (maybe_reset_counters now day rl).rpd_limit = rl.rpd_limit := by
  simp only [maybe_reset_counters]
  by_cases h60 : now - rl.minute_start ≥ 60 <;>
    by_cases hd : day = rl.day_key <;>
      simp [h60, hd]

/-! ## C1: rate limiter admission thresholds -/

/-- C1.  Rate limiter admission: with the daily counter read relative to the
current UTC day (`dailyCount`, the value the lazy reset realises before any
check), `acquire` returns `blocked` (refusing) once the counter has reached
`rpd_limit`; otherwise `cached_only` (refusing) at ≥ 95% daily usage;
otherwise `degraded` (allowing) at ≥ 80%; otherwise `ok` (allowing).  In
particular a counter exactly at `rpd_limit` — the state after exactly
`rpd_limit` admitted requests within one UTC day — is answered `blocked`. -/
theorem acquire_admission_thresholds (now : ℚ) (day : ℕ) (hoursLeft : ℚ)
    (rl : RateLimiter) :
    (dailyCount day rl ≥ rl.rpd_limit →
      (acquire now day hoursLeft rl).1.status = "blocked" ∧
        (acquire now day hoursLeft rl).1.allowed = false) ∧
    (dailyCount day rl < rl.rpd_limit →
      (dailyCount day rl : ℚ) / (rl.rpd_limit : ℚ) * 100 ≥ 95 →
      (acquire now day hoursLeft rl).1.status = "cached_only" ∧
        (acquire now day hoursLeft rl).1.allowed = false) ∧
    (dailyCount day rl < rl.rpd_limit →
      (dailyCount day rl : ℚ) / (rl.rpd_limit : ℚ) * 100 < 95 →
      (dailyCount day rl : ℚ) / (rl.rpd_limit : ℚ) * 100 ≥ 80 →
      (acquire now day hoursLeft rl).1.status = "degraded" ∧
        (acquire now day hoursLeft rl).1.allowed = true) ∧
    (dailyCount day rl < rl.rpd_limit →
      (dailyCount day rl : ℚ) / (rl.rpd_limit : ℚ) * 100 < 80 →
      (acquire now day hoursLeft rl).1.status = "ok" ∧
        (acquire now day hoursLeft rl).1.allowed = true) ∧
    (dailyCount day rl = rl.rpd_limit →
      (acquire now day hoursLeft rl).1.status = "blocked") := by
  have hreq := maybe_reset_requests now day rl
  have hrpd := maybe_reset_rpd now day rl
  simp only [acquire, hreq, hrpd]
  refine ⟨?_, ?_, ?_, ?_, ?_⟩
  · intro h
    rw [if_pos h]
    exact ⟨rfl, rfl⟩
  · intro hlt hpct
    have hpos : 0 < rl.rpd_limit := by omega
    rw [if_neg (by omega), if_pos (by rw [if_pos hpos]; exact hpct)]
    exact ⟨rfl, rfl⟩
  · intro hlt hlt95 hge80
    have hpos : 0 < rl.rpd_limit := by omega
    rw [if_neg (by omega), if_neg (by rw [if_pos hpos]; exact not_le.mpr hlt95),
      if_pos (by rw [if_pos hpos]; exact hge80)]
    exact ⟨rfl, rfl⟩
  · intro hlt hlt80
    have hpos : 0 < rl.rpd_limit := by omega
    have h95 : ¬ ((dailyCount day rl : ℚ) / (rl.rpd_limit : ℚ) * 100 ≥ 95) := by
      intro hc; exact absurd (lt_of_lt_of_le hlt80 (by linarith)) (lt_irrefl _)
    rw [if_neg (by omega), if_neg (by rw [if_pos hpos]; exact h95),
      if_neg (by rw [if_pos hpos]; exact not_le.mpr hlt80)]
    exact ⟨rfl, rfl⟩
  · intro h
    rw [if_pos (le_of_eq h.symm)]

/-- Witness for C1: a limiter whose stored counter equals its daily limit on
the stored day is blocked and refused. -/
theorem acquire_admission_thresholds_witness :
    (acquire 0 7 5 ⟨30000, 1000, 0, 0, 1000, 7, 0, 100⟩).1.status = "blocked" ∧
      (acquire 0 7 5 ⟨30000, 1000, 0, 0, 1000, 7, 0, 100⟩).1.allowed = false :=
  (acquire_admission_thresholds 0 7 5 ⟨30000, 1000, 0, 0, 1000, 7, 0, 100⟩).1
    (by decide)

/-! ## C10: refused requests and the daily quota -/

/-- C10 counterexample.  The claim reads the raw `requests_today` field over
*every* call to `acquire`; on the first call after a UTC-day rollover the
lazy reset rewrites the stale field, so an admitted request can leave the
field far below its previous value + 1: from a state with
`requests_today = 5` stored for day 0, a call on day 1 is allowed yet ends
with `requests_today = 1 ≠ 5 + 1`. -/
theorem acquire_quota_increment_counterexample :
    (acquire 0 1 5 ⟨30000, 1000, 0, 0, 5, 0, 0, 100⟩).1.allowed = true ∧
      (acquire 0 1 5 ⟨30000, 1000, 0, 0, 5, 0, 0, 100⟩).2.requests_today ≠
        (⟨30000, 1000, 0, 0, 5, 0, 0, 100⟩ : RateLimiter).requests_today + 1 := by
  have h : acquire 0 1 5 ⟨30000, 1000, 0, 0, 5, 0, 0, 100⟩ =
      (⟨true, "ok", none⟩, ⟨30000, 1000, 0, 0, 1, 1, 0, 100⟩) := by
    norm_num [acquire, maybe_reset_counters]
  rw [h]
  exact ⟨rfl, by decide⟩

/-- C10 amended.  On a call that does not cross a UTC-day boundary (the
stored day key is current), `requests_today` increases by exactly 1 iff the
returned status is an allowed one, and a refused admission leaves the
counter unchanged — refused requests never consume daily quota. -/
theorem acquire_quota_increment (now : ℚ) (day : ℕ) (hoursLeft : ℚ)
    (rl : RateLimiter) (hday : day = rl.day_key) :
    ((acquire now day hoursLeft rl).2.requests_today = rl.requests_today + 1 ↔
      (acquire now day hoursLeft rl).1.allowed = true) ∧
    ((acquire now day hoursLeft rl).1.allowed = false →
      (acquire now day hoursLeft rl).2.requests_today = rl.requests_today) := by
  have hreq : (maybe_reset_counters now day rl).requests_today =
      rl.requests_today := by
    rw [maybe_reset_requests]; simp [dailyCount, hday]
  simp only [acquire]
  split_ifs with h1 h2 h3 <;> simp [hreq]

/-- Witness for C10: a same-day call below every threshold is allowed and
bumps the counter by exactly one. -/
theorem acquire_quota_increment_witness :
    ((acquire 0 7 5 ⟨30000, 1000, 0, 0, 10, 7, 0, 100⟩).2.requests_today =
        (⟨30000, 1000, 0, 0, 10, 7, 0, 100⟩ : RateLimiter).requests_today + 1 ↔
      (acquire 0 7 5 ⟨30000, 1000, 0, 0, 10, 7, 0, 100⟩).1.allowed = true) ∧
    ((acquire 0 7 5 ⟨30000, 1000, 0, 0, 10, 7, 0, 100⟩).1.allowed = false →
      (acquire 0 7 5 ⟨30000, 1000, 0, 0, 10, 7, 0, 100⟩).2.requests_today =
        (⟨30000, 1000, 0, 0, 10, 7, 0, 100⟩ : RateLimiter).requests_today) :=
  acquire_quota_increment 0 7 5 ⟨30000, 1000, 0, 0, 10, 7, 0, 100⟩ rfl

/-! ## C5: embedding cache TTL round-trip -/

/-- C5.  For every question and vector, a `get_embedding` after
`store_embedding` returns the stored vector while the elapsed time is
strictly below the embedding TTL, and returns a miss (`none`) once the TTL
has elapsed — the TTL guard in `get_embedding` rejects an expired entry even
though the store still holds it (no sweep is needed). -/
theorem embedding_cache_ttl_roundtrip (c : CacheService) (t0 t1 : ℚ)
    (question : String) (v : List ℚ) :
    (t1 - t0 < c.embedding_ttl →
      get_embedding (store_embedding c t0 question v) t1 question = some v) ∧
    (c.embedding_ttl ≤ t1 - t0 →
      get_embedding (store_embedding c t0 question v) t1 question = none) := by
  constructor
  · intro h
    simp [get_embedding, store_embedding, h]
  · intro h
    simp [get_embedding, store_embedding, not_lt.mpr h]

/-- Witness for C5: with a 3600-second TTL, a vector stored at time 0 is
returned at time 10 and expired at time 3600. -/
theorem embedding_cache_ttl_roundtrip_witness :
    get_embedding
        (store_embedding ⟨3600, 86400, 95 / 100, fun _ => none, []⟩ 0
          "what is vlookup" [1, 0]) 10 "what is vlookup" = some [1, 0] ∧
    get_embedding
        (store_embedding ⟨3600, 86400, 95 / 100, fun _ => none, []⟩ 0
          "what is vlookup" [1, 0]) 3600 "what is vlookup" = none :=
  ⟨(embedding_cache_ttl_roundtrip ⟨3600, 86400, 95 / 100, fun _ => none, []⟩
      0 10 "what is vlookup" [1, 0]).1 (by norm_num),
   (embedding_cache_ttl_roundtrip ⟨3600, 86400, 95 / 100, fun _ => none, []⟩
      0 3600 "what is vlookup" [1, 0]).2 (by norm_num)⟩

/-! ## C2: semantic cache scope guard -/

/-- C2.  A semantic-cache lookup returns an entry as a hit only if that
entry's course title and lecture order both equal the lookup's scope — for
every question embedding, hence at any cosine similarity including 1.0
(first conjunct) — and the lookup's outcome depends on similarity values
only at unexpired, scope-matching entries: two question embeddings that
agree in dot product on every in-scope unexpired entry produce the same
outcome, so similarity is never consulted for a scope-mismatched entry
(second conjunct). -/
theorem semantic_cache_scope_guard (entries : List SemanticCacheEntry)
    (now ttl thresh : ℚ) (qe : List ℚ) (order : ℕ) (course : String) :
    (∀ e, findSemanticEntry entries now ttl thresh qe order course = some e →
      e.lecture_order = order ∧ e.course_title = course) ∧
    (∀ qe2 : List ℚ,
      (∀ e ∈ entries, now - e.timestamp < ttl → e.lecture_order = order →
        e.course_title = course →
        dotQ qe e.question_embedding = dotQ qe2 e.question_embedding) →
      findSemanticEntry entries now ttl thresh qe order course =
        findSemanticEntry entries now ttl thresh qe2 order course) := by
  induction entries with
  | nil => exact ⟨fun e h => by simp [findSemanticEntry] at h, fun qe2 _ => rfl⟩
  | cons e rest ih =>
    constructor
    · intro e' h
      simp only [findSemanticEntry] at h
      split_ifs at h with h1 h2 h3
      · exact ih.1 e' h
      · exact ih.1 e' h
      · push_neg at h2
        obtain rfl : e = e' := Option.some_injective _ h
        exact h2
      · exact ih.1 e' h
    · intro qe2 hagree
      have ihrest := ih.2 qe2
        (fun x hx ha hb hc => hagree x (List.mem_cons_of_mem _ hx) ha hb hc)
      by_cases h1 : now - e.timestamp ≥ ttl
      · simp only [findSemanticEntry, if_pos h1]
        exact ihrest
      · by_cases h2 : e.lecture_order ≠ order ∨ e.course_title ≠ course
        · simp only [findSemanticEntry, if_neg h1, if_pos h2]
          exact ihrest
        · have h2' : e.lecture_order = order ∧ e.course_title = course := by
            push_neg at h2; exact h2
          have hd := hagree e (List.mem_cons_self _ _) (not_le.mp h1) h2'.1 h2'.2
          simp only [findSemanticEntry, if_neg h1, if_neg h2]
          rw [hd, ihrest]

/-- Witness for C2: a hit on an in-scope entry (order 3 of course "Excel")
carries exactly that scope. -/
theorem semantic_cache_scope_guard_witness :
    (⟨[1], "cached answer", [], "in_scope", 3, "Excel", 0⟩ :
        SemanticCacheEntry).lecture_order = 3 ∧
      (⟨[1], "cached answer", [], "in_scope", 3, "Excel", 0⟩ :
        SemanticCacheEntry).course_title = "Excel" :=
  (semantic_cache_scope_guard
      [⟨[1], "cached answer", [], "in_scope", 3, "Excel", 0⟩]
      10 86400 (95 / 100) [1] 3 "Excel").1
    ⟨[1], "cached answer", [], "in_scope", 3, "Excel", 0⟩
    (by norm_num [findSemanticEntry, dotQ])

/-! ## C8: reference builder excludes the current lecture -/

theorem buildReferencesAux_sources (chunks : List ScoredChunk)
    (cur : String) (hcur : cur ≠ "") :
    ∀ seen : List (String × String),
      ∀ r ∈ buildReferencesAux chunks cur seen,
        ∃ c, c ∈ chunks ∧ c.meta.lecture_id ≠ some cur ∧
          r = mkReference c.meta := by
  induction chunks with
  | nil => intro seen r hr; simp [buildReferencesAux] at hr
  | cons c rest ih =>
    intro seen r hr
    simp only [buildReferencesAux] at hr
    split_ifs at hr with h1 h2
    · obtain ⟨c', hc', hne, he⟩ := ih seen r hr
      exact ⟨c', List.mem_cons_of_mem _ hc', hne, he⟩
    · obtain ⟨c', hc', hne, he⟩ := ih seen r hr
      exact ⟨c', List.mem_cons_of_mem _ hc', hne, he⟩
    · rcases List.mem_cons.mp hr with h | h
      · refine ⟨c, List.mem_cons_self _ _, ?_, h⟩
        intro hid
        exact h1 ⟨hcur, hid⟩
      · obtain ⟨c', hc', hne, he⟩ := ih _ r h
        exact ⟨c', List.mem_cons_of_mem _ hc', hne, he⟩

/-- C8 counterexample.  The skip guard in `_build_references` is
`if current_lecture_id and ...`: a falsy (empty) current lecture id disables
the exclusion entirely, so a chunk whose own `lecture_id` equals that empty
id still produces a reference.  This refutes the claim as stated, which
quantifies over every current lecture id. -/
theorem build_references_excludes_current_counterexample :
    ¬ (∀ r ∈ build_references
          [{ score := 1 / 2,
             meta := { lecture_id := some "", lecture_title := some "Intro",
                       chapter_title := some "Ch1",
                       timestamp_start := some "00:00:05" } }] 3 "",
        ∃ c, c ∈ ([{ score := 1 / 2,
                     meta := { lecture_id := some "",
                               lecture_title := some "Intro",
                               chapter_title := some "Ch1",
                               timestamp_start := some "00:00:05" } }] :
               List ScoredChunk) ∧
          c.meta.lecture_id ≠ some "" ∧ r = mkReference c.meta) := by
  intro h
  have hmem : mkReference
      ({ lecture_id := some "", lecture_title := some "Intro",
         chapter_title := some "Ch1",
         timestamp_start := some "00:00:05" } : ChunkMeta) ∈
      build_references
        [{ score := 1 / 2,
           meta := { lecture_id := some "", lecture_title := some "Intro",
                     chapter_title := some "Ch1",
                     timestamp_start := some "00:00:05" } }] 3 "" := by
    simp [build_references, buildReferencesAux]
  obtain ⟨c, hc, hne, -⟩ := h _ hmem
  rw [List.mem_singleton] at hc
  subst hc
  exact hne rfl

/-- C8 amended.  For every chunk list and every *non-empty* current lecture
id, each entry of the built reference list derives from a chunk whose
lecture id differs from the current one — citations never point at the
lecture the learner is watching. -/
theorem build_references_excludes_current (chunks : List ScoredChunk)
    (ord : ℕ) (cur : String) (hcur : cur ≠ "") :
    ∀ r ∈ build_references chunks ord cur,
      ∃ c, c ∈ chunks ∧ c.meta.lecture_id ≠ some cur ∧
        r = mkReference c.meta := by
  exact buildReferencesAux_sources chunks cur hcur []

/-- Witness for C8: with current lecture id "L2", the reference built from
an "L1" chunk derives from a chunk whose lecture id is not "L2". -/
theorem build_references_excludes_current_witness :
    ∃ c, c ∈ ([{ score := 1 / 2,
                 meta := { lecture_id := some "L1",
                           lecture_title := some "Intro",
                           chapter_title := some "Ch1",
                           timestamp_start := some "00:00:05" } }] :
           List ScoredChunk) ∧
      c.meta.lecture_id ≠ some "L2" ∧
      mkReference ({ lecture_id := some "L1", lecture_title := some "Intro",
                     chapter_title := some "Ch1",
                     timestamp_start := some "00:00:05" } : ChunkMeta) =
        mkReference c.meta :=
  build_references_excludes_current
    [{ score := 1 / 2,
       meta := { lecture_id := some "L1", lecture_title := some "Intro",
                 chapter_title := some "Ch1",
                 timestamp_start := some "00:00:05" } }] 3 "L2" (by decide)
    (mkReference ({ lecture_id := some "L1", lecture_title := some "Intro",
                    chapter_title := some "Ch1",
                    timestamp_start := some "00:00:05" } : ChunkMeta))
    (by simp [build_references, buildReferencesAux])

/-! ## C3: previous-intent search never falls through when chunks exist -/

/-- C3.  When the detected intent is `previous`, the resolved lecture order
exceeds 1, and the raw-embedding search of lecture `resolved − 1` returns at
least one chunk, the retriever returns exactly those previous-lecture chunks
— whatever their scores — and never falls through to the current-lecture
strategy (it falls through only when that search comes back empty). -/
theorem dual_search_previous_intent (vs : VectorStoreService)
    (enc : String → List ℚ) (qv : List ℚ) (course : String) (ord : ℕ)
    (question lid : String)
    (hintent : detect_intent question = Intent.previous)
    (horder : 1 < resolve_lecture_order vs lid ord)
    (hnonempty : vs.searchCurrentByOrder (enc question) course
      (resolve_lecture_order vs lid ord - 1) 5 ≠ []) :
    perform_dual_search vs enc qv course ord question lid =
      vs.searchCurrentByOrder (enc question) course
        (resolve_lecture_order vs lid ord - 1) 5 := by
  simp only [perform_dual_search, hintent, eq_self_iff_true, true_and]
  rw [if_pos horder, if_pos hnonempty]

/-- Witness for C3: a question carrying the "previous lecture" marker, a
store resolving the current id to order 3 and holding one chunk for order 2,
returns exactly that chunk list. -/
theorem dual_search_previous_intent_witness :
    perform_dual_search
        ⟨fun _ _ _ _ => [], fun _ _ _ _ => [],
         fun _ _ _ _ => [{ score := 1 / 5,
                           meta := { lecture_id := some "L2",
                                     chunk_index := some 0 } }],
         fun _ _ _ => [], fun _ => some 3⟩
        (fun _ => []) [] "Excel" 2 "previous lecture?" "L3" =
      VectorStoreService.searchCurrentByOrder
        ⟨fun _ _ _ _ => [], fun _ _ _ _ => [],
         fun _ _ _ _ => [{ score := 1 / 5,
                           meta := { lecture_id := some "L2",
                                     chunk_index := some 0 } }],
         fun _ _ _ => [], fun _ => some 3⟩
        ((fun _ => ([] : List ℚ)) "previous lecture?") "Excel"
        (resolve_lecture_order
          ⟨fun _ _ _ _ => [], fun _ _ _ _ => [],
           fun _ _ _ _ => [{ score := 1 / 5,
                             meta := { lecture_id := some "L2",
                                       chunk_index := some 0 } }],
           fun _ _ _ => [], fun _ => some 3⟩ "L3" 2 - 1) 5 :=
  dual_search_previous_intent _ _ _ _ _ _ _ (by decide)
    (by decide) (by decide)

/-! ## C6: the retriever returns at most 5 chunks on every path -/

theorem length_insertDesc (c : ScoredChunk) (l : List ScoredChunk) :
    (insertDesc c l).length = l.length + 1 := by
  induction l with
  | nil => rfl
  | cons x xs ih =>
    simp only [insertDesc]
    split_ifs <;> simp [ih]

theorem length_sortDesc (l : List ScoredChunk) :
    (sortDesc l).length = l.length := by
  induction l with
  | nil => rfl
  | cons c cs ih => simp [sortDesc, length_insertDesc, ih]

theorem merge_length_le (current broad : List ScoredChunk) (lid : String) :
    (mergeWithCurrentPriority current broad lid).length ≤ 5 := by
  simp only [mergeWithCurrentPriority]
  split_ifs <;> simp [List.length_take]

theorem dualSearchMain_length_le (vs : VectorStoreService) (qv : List ℚ)
    (course : String) (ro : ℕ) (intent : Intent) (lid : String)
    (h : BoundedStore vs) :
    (dualSearchMain vs qv course ro intent lid).length ≤ 5 := by
  obtain ⟨hs, hid, hord, hall⟩ := h
  simp only [dualSearchMain]
  generalize hgen : (if lid ≠ "" then vs.searchCurrentById qv course lid 5
      else vs.searchCurrentByOrder qv course ro 5) = cc
  have hcc : cc.length ≤ 5 := by
    rw [← hgen]
    split_ifs
    · exact hid qv course lid 5
    · exact hord qv course ro 5
  split_ifs with h1 h2
  · exact hcc
  · rw [length_sortDesc]
    simp only [boostCurrent, List.length_map, List.length_append,
      List.length_take]
    omega
  · exact merge_length_le _ _ _

/-- C6.  Assuming the vector store honours its `top_k` bounds, every branch
of the dual-search strategy — previous-intent, current-only, current+broad,
broad merge, and the forced splice — returns at most 5 chunks. -/
theorem dual_search_returns_at_most_five (vs : VectorStoreService)
    (enc : String → List ℚ) (qv : List ℚ) (course : String) (ord : ℕ)
    (question lid : String) (h : BoundedStore vs) :
    (perform_dual_search vs enc qv course ord question lid).length ≤ 5 := by
  simp only [perform_dual_search]
  by_cases hc : detect_intent question = Intent.previous ∧
      1 < resolve_lecture_order vs lid ord
  · rw [if_pos hc]
    split_ifs with hne
    · exact h.2.2.1 _ _ _ _
    · exact dualSearchMain_length_le _ _ _ _ _ _
        ⟨h.1, h.2.1, h.2.2.1, h.2.2.2⟩
  · rw [if_neg hc]
    simp only [ne_eq, not_true_eq_false, if_false, not_false_eq_true]
    exact dualSearchMain_length_le _ _ _ _ _ _
      ⟨h.1, h.2.1, h.2.2.1, h.2.2.2⟩

/-- Witness for C6: a trivially bounded store yields at most 5 chunks. -/
theorem dual_search_returns_at_most_five_witness :
    (perform_dual_search
        ⟨fun _ _ _ _ => [], fun _ _ _ _ => [], fun _ _ _ _ => [],
         fun _ _ _ => [], fun _ => none⟩
        (fun _ => []) [] "Excel" 0 "what is a pivot table" "L1").length ≤ 5 :=
  dual_search_returns_at_most_five _ _ _ _ _ _ _
    ⟨fun _ _ _ _ => Nat.zero_le _, fun _ _ _ _ => Nat.zero_le _,
     fun _ _ _ _ => Nat.zero_le _, fun _ _ _ => Nat.zero_le _⟩

/-! ## C4: result classifier mapping -/

/-- C4.  For any non-previous intent: when the merged list is empty or its
best score is below 0.35, the whole-course search decides — best ≥ 0.35
classifies `future_topic`, otherwise `off_topic`; when the best score is at
least 0.35 the result is `in_scope`, with the top 3 chunks at best score
≥ 0.7 and up to 5 chunks below that. -/
theorem classify_results_thresholds (vs : VectorStoreService)
    (chunks : List ScoredChunk) (qv : List ℚ) (course : String)
    (intent : Intent) (hint : intent ≠ Intent.previous) :
    ((chunks = [] ∨ headScoreD chunks 0 < RELEVANCE_THRESHOLD) →
      ((vs.searchAllLectures qv course 3 ≠ [] ∧
          headScoreD (vs.searchAllLectures qv course 3) 0 ≥
            RELEVANCE_THRESHOLD) →
        classify_results vs chunks qv course intent = ("future_topic", [])) ∧
      (¬ (vs.searchAllLectures qv course 3 ≠ [] ∧
          headScoreD (vs.searchAllLectures qv course 3) 0 ≥
            RELEVANCE_THRESHOLD) →
        classify_results vs chunks qv course intent = ("off_topic", []))) ∧
    (¬ (chunks = [] ∨ headScoreD chunks 0 < RELEVANCE_THRESHOLD) →
      (headScoreD chunks 0 ≥ HIGH_RELEVANCE_THRESHOLD →
        classify_results vs chunks qv course intent =
          ("in_scope", chunks.take 3)) ∧
      (headScoreD chunks 0 < HIGH_RELEVANCE_THRESHOLD →
        classify_results vs chunks qv course intent =
          ("in_scope", chunks.take 5))) := by
  have hni : ¬ (intent = Intent.previous ∧ chunks ≠ []) := by
    rintro ⟨h, -⟩; exact hint h
  simp only [classify_results, if_neg hni]
  constructor
  · intro hlow
    rw [if_pos hlow]
    constructor
    · intro hall; rw [if_pos hall]
    · intro hall; rw [if_neg hall]
  · intro hhigh
    rw [if_neg hhigh]
    constructor
    · intro hge; rw [if_pos hge]
    · intro hlt; rw [if_neg (not_le.mpr hlt)]

/-- Witness for C4, instantiating the three worked examples of the spec: a
top score of 0.36 keeps up to 5 chunks in scope; a top score of 0.34 with a
whole-course best of 0.40 is a future topic; a whole-course best of 0.20 is
off topic. -/
theorem classify_results_thresholds_witness :
    classify_results
        ⟨fun _ _ _ _ => [], fun _ _ _ _ => [], fun _ _ _ _ => [],
         fun _ _ _ => [], fun _ => none⟩
        [{ score := 36 / 100, meta := {} }] [] "Excel" Intent.default =
      ("in_scope", ([{ score := 36 / 100, meta := {} }] :
        List ScoredChunk).take 5) ∧
    classify_results
        ⟨fun _ _ _ _ => [], fun _ _ _ _ => [], fun _ _ _ _ => [],
         fun _ _ _ => [{ score := 40 / 100, meta := {} }], fun _ => none⟩
        [{ score := 34 / 100, meta := {} }] [] "Excel" Intent.default =
      ("future_topic", []) ∧
    classify_results
        ⟨fun _ _ _ _ => [], fun _ _ _ _ => [], fun _ _ _ _ => [],
         fun _ _ _ => [{ score := 20 / 100, meta := {} }], fun _ => none⟩
        [] [] "Excel" Intent.default =
      ("off_topic", []) :=
  ⟨((classify_results_thresholds _ [{ score := 36 / 100, meta := {} }] [] "Excel"
        Intent.default (by decide)).2
      (by norm_num [headScoreD, RELEVANCE_THRESHOLD])).2
    (by norm_num [headScoreD, HIGH_RELEVANCE_THRESHOLD]),
   ((classify_results_thresholds _ [{ score := 34 / 100, meta := {} }] [] "Excel"
        Intent.default (by decide)).1
      (by norm_num [headScoreD, RELEVANCE_THRESHOLD])).1
    (by norm_num [headScoreD, RELEVANCE_THRESHOLD]),
   ((classify_results_thresholds _ [] [] "Excel"
        Intent.default (by decide)).1 (Or.inl rfl)).2
    (by norm_num [headScoreD, RELEVANCE_THRESHOLD])⟩

/-! ## C7: minimum current-lecture presence in the broad-merge path -/

theorem splice_countP_ge_two (p : ScoredChunk → Bool)
    (cif T nonCur : List ScoredChunk)
    (hcf : ∀ a ∈ cif, p a = true) (hT : ∀ a ∈ T, p a = true)
    (hlen : (cif ++ T).length = 2) :
    2 ≤ ((cif ++ T ++ nonCur).take 5).countP p := by
  rw [List.take_append_eq_append_take,
    List.take_of_length_le (le_trans (le_of_eq hlen) (by norm_num)),
    List.countP_append]
  have h2 : (cif ++ T).countP p = 2 := by
    rw [List.countP_eq_length.mpr, hlen]
    intro a ha
    rcases List.mem_append.mp ha with h | h
    · exact hcf a h
    · exact hT a h
  omega

theorem filter_not_key_ge (l : List ScoredChunk) (p : ScoredChunk → Bool)
    (hnd : (l.map chunkKey).Nodup)
    (hk : ∀ a b, p a = false → p b = false → chunkKey a = chunkKey b) :
    l.length - 1 ≤ (l.filter p).length := by
  induction l with
  | nil => simp
  | cons c rest ih =>
    have hnd' : (rest.map chunkKey).Nodup := (List.nodup_cons.mp hnd).2
    have hnotin : chunkKey c ∉ rest.map chunkKey := (List.nodup_cons.mp hnd).1
    cases hp : p c with
    | false =>
      have hrest : rest.filter p = rest := by
        apply List.filter_eq_self.mpr
        intro y hy
        cases hq : p y with
        | true => rfl
        | false =>
          exact absurd (List.mem_map.mpr ⟨y, hy, (hk c y hp hq).symm⟩) hnotin
      simp [List.filter_cons, hp, hrest]
    | true =>
      have := ih hnd'
      simp only [List.filter_cons, hp, if_true, List.length_cons]
      omega

theorem merge_min_two_current (current broad : List ScoredChunk)
    (lid : String) (hlen : 2 ≤ current.length)
    (hall : ∀ c ∈ current, c.meta.lecture_id = some lid)
    (hnd : (current.map chunkKey).Nodup) :
    2 ≤ (mergeWithCurrentPriority current broad lid).countP
      (fun c => decide (c.meta.lecture_id = some lid)) := by
  have hne : current ≠ [] := by rintro rfl; simp at hlen
  simp only [mergeWithCurrentPriority]
  set F := sortDesc (boostCurrent lid (mergeCandidates current broad)) with hF
  set cif := (F.take 5).filter
    (fun c => decide (c.meta.lecture_id = some lid)) with hcif
  set rem := current.filter
    (fun c => ! cif.any (fun x => decide (chunkKey x = chunkKey c))) with hrem
  by_cases h1 : cif.length < 2 ∧ current ≠ []
  · have hremlen : 2 - cif.length ≤ rem.length := by
      have h01 : cif.length = 0 ∨ cif.length = 1 := by omega
      rcases h01 with h0 | h01
      · have hcif0 : cif = [] := List.length_eq_zero.mp h0
        rw [hrem, hcif0]
        simp only [List.any_nil, Bool.not_false, List.filter_true]
        omega
      · obtain ⟨x, hx⟩ := List.length_eq_one.mp h01
        rw [hrem, h01, hx]
        simp only [List.any_cons, List.any_nil, Bool.or_false]
        have hkey := filter_not_key_ge current
          (fun c => ! decide (chunkKey x = chunkKey c)) hnd
          (fun a b ha hb => by
            simp only [Bool.not_eq_false', decide_eq_true_eq] at ha hb
            exact ha.symm.trans hb)
        omega
    have hremne : rem ≠ [] := by
      intro h
      rw [h] at hremlen
      simp at hremlen
      omega
    rw [if_pos h1, if_pos hremne]
    apply splice_countP_ge_two
    · intro a ha
      rw [hcif] at ha
      exact (List.mem_filter.mp ha).2
    · intro a ha
      have hmem : a ∈ current := by
        have := List.mem_of_mem_take ha
        rw [hrem] at this
        exact List.mem_of_mem_filter this
      exact decide_eq_true (hall a hmem)
    · simp only [List.length_append, List.length_take]
      omega
  · rw [if_neg h1]
    have hcl : 2 ≤ cif.length := by
      rcases not_and_or.mp h1 with h | h
      · omega
      · exact absurd (not_not.mp h) hne
    calc 2 ≤ cif.length := hcl
      _ = (F.take 5).countP (fun c => decide (c.meta.lecture_id = some lid)) := by
        rw [hcif, List.countP_eq_length_filter]

/-- C7 counterexample.  The claim promises at least 2 current-lecture chunks
whenever the current lecture has at least one indexed chunk; with exactly one
indexed current-lecture chunk the splice can only supply that one.  Here the
broad-merge branch is taken (best current score 1/5 ≤ 0.5, default intent),
the current search returns one chunk, and the retriever's result contains
exactly one current-lecture chunk, not two. -/
theorem dual_search_min_current_counterexample :
    VectorStoreService.searchCurrentById
        ⟨fun _ _ _ _ => [], fun _ _ _ _ =>
          [{ score := 1 / 5,
             meta := { lecture_id := some "L1", chunk_index := some 0 } }],
         fun _ _ _ _ => [], fun _ _ _ => [], fun _ => some 1⟩
        [] "Excel" "L1" 5 ≠ [] ∧
    headScoreD
      (VectorStoreService.searchCurrentById
        ⟨fun _ _ _ _ => [], fun _ _ _ _ =>
          [{ score := 1 / 5,
             meta := { lecture_id := some "L1", chunk_index := some 0 } }],
         fun _ _ _ _ => [], fun _ _ _ => [], fun _ => some 1⟩
        [] "Excel" "L1" 5) 0 ≤ 1 / 2 ∧
    detect_intent "hello" = Intent.default ∧
    (perform_dual_search
        ⟨fun _ _ _ _ => [], fun _ _ _ _ =>
          [{ score := 1 / 5,
             meta := { lecture_id := some "L1", chunk_index := some 0 } }],
         fun _ _ _ _ => [], fun _ _ _ => [], fun _ => some 1⟩
        (fun _ => []) [] "Excel" 0 "hello" "L1").countP
      (fun c => decide (c.meta.lecture_id = some "L1")) < 2 := by
  have hint : detect_intent "hello" = Intent.default := by decide
  refine ⟨by simp, by norm_num [headScoreD], hint, ?_⟩
  have hres : perform_dual_search
      ⟨fun _ _ _ _ => [], fun _ _ _ _ =>
        [{ score := 1 / 5,
           meta := { lecture_id := some "L1", chunk_index := some 0 } }],
       fun _ _ _ _ => [], fun _ _ _ => [], fun _ => some 1⟩
      (fun _ => []) [] "Excel" 0 "hello" "L1" =
      [{ score := 1 / 5,
         meta := { lecture_id := some "L1", chunk_index := some 0 } }] := by
    have hs1 : (("L1" : String) = "") = False := eq_false (by decide)
    have hi1 : (Intent.default = Intent.current) = False := eq_false (by decide)
    have hi2 : (Intent.default = Intent.previous) = False := eq_false (by decide)
    norm_num [perform_dual_search, dualSearchMain, resolve_lecture_order,
      hint, headScoreD, mergeWithCurrentPriority, mergeCandidates,
      boostCurrent, sortDesc, insertDesc, chunkKey, decide_eq_true_eq,
      hs1, hi1, hi2]
  rw [hres]
  norm_num [List.countP_cons]

/-- C7 amended.  In the broad-merge branch (default intent, non-empty
current lecture id, best current-lecture score ≤ 0.5), when the
current-lecture search returns at least *2* chunks (with the distinct
dedup keys distinct chunks carry), all belonging to the current lecture,
the returned list contains at least 2 current-lecture chunks — additional
current-lecture chunks are spliced in even when their scores fall below the
0.3 merge cutoff.  (With only one current-lecture chunk indexed, only that
one can appear; see the counterexample.) -/
theorem dual_search_min_current_presence (vs : VectorStoreService)
    (enc : String → List ℚ) (qv : List ℚ) (course : String) (ord : ℕ)
    (question lid : String)
    (hintent : detect_intent question = Intent.default)
    (hlid : lid ≠ "")
    (hlow : headScoreD (vs.searchCurrentById qv course lid 5) 0 ≤ 1 / 2)
    (hlen : 2 ≤ (vs.searchCurrentById qv course lid 5).length)
    (hall : ∀ c ∈ vs.searchCurrentById qv course lid 5,
      c.meta.lecture_id = some lid)
    (hnd : ((vs.searchCurrentById qv course lid 5).map chunkKey).Nodup) :
    2 ≤ (perform_dual_search vs enc qv course ord question lid).countP
      (fun c => decide (c.meta.lecture_id = some lid)) := by
  have hprev : ¬ (detect_intent question = Intent.previous ∧
      1 < resolve_lecture_order vs lid ord) := by
    rw [hintent]
    rintro ⟨h, -⟩
    cases h
  simp only [perform_dual_search, if_neg hprev]
  simp only [ne_eq, not_true_eq_false, if_false]
  simp only [dualSearchMain, if_pos hlid, hintent]
  rw [if_neg (show ¬ (Intent.default = Intent.current ∧
      vs.searchCurrentById qv course lid 5 ≠ []) by rintro ⟨h, -⟩; cases h)]
  rw [if_neg (not_lt.mpr hlow)]
  exact merge_min_two_current _ _ _ hlen hall hnd

/-- Witness for C7: two current-lecture chunks with distinct keys and weak
scores still yield at least 2 current-lecture chunks in the result. -/
theorem dual_search_min_current_presence_witness :
    2 ≤ (perform_dual_search
        ⟨fun _ _ _ _ => [], fun _ _ _ _ =>
          [{ score := 1 / 5,
             meta := { lecture_id := some "L1", chunk_index := some 0 } },
           { score := 1 / 10,
             meta := { lecture_id := some "L1", chunk_index := some 1 } }],
         fun _ _ _ _ => [], fun _ _ _ => [], fun _ => some 1⟩
        (fun _ => []) [] "Excel" 0 "hello" "L1").countP
      (fun c => decide (c.meta.lecture_id = some "L1")) :=
  dual_search_min_current_presence _ _ _ _ _ _ _ (by decide) (by decide)
    (by norm_num [headScoreD]) (by norm_num)
    (by
      intro c hc
      rcases List.mem_cons.mp hc with h | hc2
      · rw [h]
      · rw [List.mem_singleton.mp hc2])
    (by norm_num [chunkKey, List.nodup_cons])

/-! ## C9: a failed model call never writes a semantic-cache entry -/

theorem semanticLayer_embedWithCache (enc : String → List ℚ)
    (cache : Option CacheService) (now : ℚ) (q : String) :
    semanticLayer (embedWithCache enc cache now q).2 = semanticLayer cache := by
  cases cache with
  | none => rfl
  | some c =>
    cases hge : get_embedding c now q with
    | some v => simp [embedWithCache, hge]
    | none => simp [embedWithCache, hge, semanticLayer, store_embedding]

theorem processQuestionCore_error_cache (vs : VectorStoreService)
    (enc : String → List ℚ) (e : String) (now : ℚ)
    (qv raw : List ℚ) (cache1 : Option CacheService)
    (rl1 : Option RateLimiter) (question courseTitle : String) (ord : ℕ)
    (lid : String) :
    (processQuestionCore vs enc (Except.error e) now qv raw cache1 rl1
      question courseTitle ord lid).2.1 = cache1 := by
  simp only [processQuestionCore]
  split_ifs <;> rfl

/-- C9.  When the model call fails — the single-shot `_call_llm` raising, or
the streaming generator raising mid-flow — the orchestrator returns an error
response without writing a semantic-cache entry: the semantic-cache layer of
the returned cache state equals that of the input cache state, in both entry
points, for every input.  (Only the Layer-1 embedding cache may gain the
query embedding, which Step 1 stores before the model is consulted.) -/
theorem failed_llm_preserves_semantic_cache (vs : VectorStoreService)
    (enc : String → List ℚ) (e estream : String) (llmTokens : List String)
    (now : ℚ) (day : ℕ) (hoursLeft : ℚ)
    (rl : Option RateLimiter) (cache : Option CacheService)
    (question courseTitle : String) (ord : ℕ)
    (lectureId chapterTitle lectureTitle : String) :
    semanticLayer (process_question vs enc (Except.error e) now day hoursLeft
        rl cache question courseTitle ord lectureId chapterTitle
        lectureTitle).2.1 = semanticLayer cache ∧
    semanticLayer (process_question_stream vs enc llmTokens (some estream)
        now day hoursLeft rl cache question courseTitle ord lectureId
        chapterTitle lectureTitle).2.1 = semanticLayer cache := by
  have hc1 := semanticLayer_embedWithCache enc cache now
    (enrichQuery question chapterTitle lectureTitle)
  constructor
  · simp only [process_question]
    cases hsem : cacheSemanticLookup
        (embedWithCache enc cache now
          (enrichQuery question chapterTitle lectureTitle)).2
        now (enc question) ord courseTitle with
    | some cached => simp only [hsem]; exact hc1
    | none =>
      simp only [hsem]
      cases rl with
      | none =>
        simp only [Option.map_none']
        rw [processQuestionCore_error_cache]
        exact hc1
      | some r =>
        rcases hacq : acquire now day hoursLeft r with ⟨st, r2⟩
        simp only [Option.map_some', hacq]
        split_ifs
        · exact hc1
        · rw [processQuestionCore_error_cache]
          exact hc1
  · simp only [process_question_stream]
    cases hsem : cacheSemanticLookup
        (embedWithCache enc cache now
          (enrichQuery question chapterTitle lectureTitle)).2
        now (enc question) ord courseTitle with
    | some cached => simp only [hsem]; exact hc1
    | none =>
      simp only [hsem]
      cases rl with
      | none =>
        simp only [Option.map_none']
        split_ifs <;> exact hc1
      | some r =>
        rcases hacq : acquire now day hoursLeft r with ⟨st, r2⟩
        simp only [Option.map_some', hacq]
        split_ifs <;> exact hc1

/-- Witness for C9 at a concrete failing request: empty caches, no limiter,
an erroring model — the semantic layer is unchanged in both entry points. -/
theorem failed_llm_preserves_semantic_cache_witness :
    semanticLayer (process_question
        ⟨fun _ _ _ _ => [], fun _ _ _ _ => [], fun _ _ _ _ => [],
         fun _ _ _ => [], fun _ => none⟩
        (fun _ => []) (Except.error "429 capacity") 0 0 5 none
        (some ⟨3600, 86400, 95 / 100, fun _ => none, []⟩)
        "what is vlookup" "Excel" 2 "L3" "Ch1" "Lec3").2.1 =
      semanticLayer (some ⟨3600, 86400, 95 / 100, fun _ => none, []⟩) ∧
    semanticLayer (process_question_stream
        ⟨fun _ _ _ _ => [], fun _ _ _ _ => [], fun _ _ _ _ => [],
         fun _ _ _ => [], fun _ => none⟩
        (fun _ => []) ["partial "] (some "connection reset") 0 0 5 none
        (some ⟨3600, 86400, 95 / 100, fun _ => none, []⟩)
        "what is vlookup" "Excel" 2 "L3" "Ch1" "Lec3").2.1 =
      semanticLayer (some ⟨3600, 86400, 95 / 100, fun _ => none, []⟩) :=
  failed_llm_preserves_semantic_cache _ _ "429 capacity" "connection reset"
    ["partial "] 0 0 5 none
    (some ⟨3600, 86400, 95 / 100, fun _ => none, []⟩)
    "what is vlookup" "Excel" 2 "L3" "Ch1" "Lec3"

end ChatBuddy






